import Mathlib

/-
Formal model of the MotionCraft generation-orchestration layer
(services/geminiService.ts) and of the client-side GIF transcoding
pipeline (utils.ts), with theorems about its retry, polling, request
construction, fallback, and frame-sampling behaviour.

Remote calls are modelled by explicit environments: each fallible remote
operation is a function from the attempt index to an `Except`-valued
result, and the poll loop consumes a finite list of status responses.
Wall-clock time advances only through the explicit waits the code issues
(the code measures elapsed time with Date.now; the model counts the
fixed sleeps, which is the timing model the specification itself uses).
-/

namespace MotionCraft

/- ===== JavaScript string primitives used by the service =====
   These model the exact JS semantics the code relies on:
   `String.prototype.includes`, `String.prototype.trim`, and the
   truthiness of strings (empty string is falsy). -/

/-- Model of `haystack.includes(needle)` for JS strings: true when
`needle` occurs as a contiguous substring of `haystack`. -/
def jsIncludesAux (pat : List Char) : List Char → Bool
  | [] => pat.isEmpty
  | c :: cs => pat.isPrefixOf (c :: cs) || jsIncludesAux pat cs

/-- Model of `s.includes(pat)`. -/
def jsIncludes (s pat : String) : Bool :=
  jsIncludesAux pat.data s.data

/-- Model of `s.trim()`: strip whitespace from both ends. -/
def jsTrim (s : String) : String :=
  String.mk (((s.data.dropWhile Char.isWhitespace).reverse.dropWhile
    Char.isWhitespace).reverse)

/-- Model of JS truthiness for an optional string: `undefined` and the
empty string are falsy, every other string is truthy. -/
def jsTruthy : Option String → Bool
  | none => false
  | some s => !(s == "")

/-- Model of the JS idiom `m || d` on strings: the default is used when
`m` is the (falsy) empty string. -/
def jsOrDefault (m d : String) : String :=
  if m = "" then d else m

/- ===== withRetry (geminiService.ts lines 18-35) ===== -/

/-- The transient-failure classification used by `withRetry`
(geminiService.ts lines 23-26): the error message contains "503",
"Deadline expired", "UNAVAILABLE", or "429". -/
def isRetryable (errorMsg : String) : Bool :=
  jsIncludes errorMsg "503" ||
  jsIncludes errorMsg "Deadline expired" ||
  jsIncludes errorMsg "UNAVAILABLE" ||
  jsIncludes errorMsg "429"

deriving instance DecidableEq for Except

/-- Observable trace of one `withRetry` invocation: the final result,
the total number of times the wrapped operation was attempted, and the
sequence of waits (in ms) performed between attempts. -/
structure RetryTrace (α : Type) where
  result : Except String α
  attempts : ℕ
  delays : List ℕ
deriving DecidableEq

/-- Model of `withRetry` (geminiService.ts lines 18-35).  The wrapped
operation `fn` is modelled as a map from the attempt index to that
attempt's outcome; errors are identified with their message string.
On failure the error is retried only when retries remain and the
message is classified retryable, waiting `baseDelay` and doubling it
for the recursive call. -/
def withRetryGo {α : Type} (fn : ℕ → Except String α) :
    ℕ → ℕ → ℕ → RetryTrace α
  | idx, 0, _ =>
    match fn idx with
    | Except.ok v => ⟨Except.ok v, 1, []⟩
    | Except.error e => ⟨Except.error e, 1, []⟩
  | idx, r + 1, baseDelay =>
    match fn idx with
    | Except.ok v => ⟨Except.ok v, 1, []⟩
    | Except.error e =>
      if isRetryable e then
        let t := withRetryGo fn (idx + 1) r (baseDelay * 2)
        ⟨t.result, t.attempts + 1, baseDelay :: t.delays⟩
      else ⟨Except.error e, 1, []⟩

/-- Entry point of the retry wrapper; the source defaults are
`retries = 3`, `baseDelay = 3000`. -/
def withRetry {α : Type} (fn : ℕ → Except String α)
    (retries baseDelay : ℕ) : RetryTrace α :=
  withRetryGo fn 0 retries baseDelay

/- ===== pollForVideo (geminiService.ts lines 136-162) ===== -/

/-- The operation handle returned by the video service: completion
flag, optional error (identified with its message, where `some ""`
stands for an error object with a falsy message), and the optional
video URI found at `response.generatedVideos[0].video.uri`. -/
structure Operation where
  done : Bool
  error : Option String
  videoUri : Option String
deriving DecidableEq

/-- One response of the remote status-check endpoint
(`ai.operations.getVideosOperation`): either a fresh operation
snapshot, or a thrown error with the given message. -/
inductive PollResponse where
  | ok (next : Operation)
  | err (msg : String)
deriving DecidableEq

/-- How one `pollForVideo` invocation ends.  `exhausted` is a model
artifact marking that the finite response trace ran out while the
loop was still pending; the theorems show this cannot happen once the
trace has at least 31 entries. -/
inductive PollOutcome where
  | success (op : Operation)
  | timeout
  | failure (msg : String)
  | exhausted
deriving DecidableEq

/-- Observable trace of one `pollForVideo` invocation: outcome, total
slept wall-clock time in ms, and number of status-check calls made. -/
structure PollResult where
  outcome : PollOutcome
  elapsed : ℕ
  statusCalls : ℕ
deriving DecidableEq

/-- `MAX_WAIT_TIME` (geminiService.ts line 140): 5 minutes in ms. -/
def MAX_WAIT_TIME : ℕ := 300000

/-- The fixed poll sleep (geminiService.ts line 147): 10 seconds. -/
def POLL_INTERVAL : ℕ := 10000

/-- The transient classification used inside the poll loop
(geminiService.ts line 154): "503", "Deadline expired", or
"UNAVAILABLE" — note it does not test for "429". -/
def isTransientPollError (msg : String) : Bool :=
  jsIncludes msg "503" ||
  jsIncludes msg "Deadline expired" ||
  jsIncludes msg "UNAVAILABLE"

/-- Model of the `while (!op.done)` loop of `pollForVideo`
(geminiService.ts lines 142-160).  Each iteration first exits if the
operation is done, then fails with a timeout if elapsed time exceeds
the ceiling, then sleeps `POLL_INTERVAL` and performs one status
check; a thrown status-check error is swallowed (and the same pending
operation kept) exactly when `isTransientPollError` matches,
otherwise it propagates. -/
def pollGo : List PollResponse → Operation → ℕ → ℕ → PollResult
  | [], op, elapsed, calls =>
    if op.done then ⟨PollOutcome.success op, elapsed, calls⟩
    else if MAX_WAIT_TIME < elapsed then ⟨PollOutcome.timeout, elapsed, calls⟩
    else ⟨PollOutcome.exhausted, elapsed, calls⟩
  | r :: rest, op, elapsed, calls =>
    if op.done then ⟨PollOutcome.success op, elapsed, calls⟩
    else if MAX_WAIT_TIME < elapsed then ⟨PollOutcome.timeout, elapsed, calls⟩
    else
      match r with
      | PollResponse.ok next =>
        pollGo rest next (elapsed + POLL_INTERVAL) (calls + 1)
      | PollResponse.err m =>
        if isTransientPollError m then
          pollGo rest op (elapsed + POLL_INTERVAL) (calls + 1)
        else ⟨PollOutcome.failure m, elapsed + POLL_INTERVAL, calls + 1⟩

/-- Model of `pollForVideo` (geminiService.ts lines 136-162), started
on the given operation with zero elapsed time. -/
def pollForVideo (responses : List PollResponse) (operation : Operation) :
    PollResult :=
  pollGo responses operation 0 0

/- ===== fetchVideoBlob and generateTextVideo
   (geminiService.ts lines 164-219) ===== -/

/-- Model of `fetchVideoBlob` (geminiService.ts lines 164-176): the
asset download, whose attempts are modelled by `fetchAttempt`, wrapped
in `withRetry` with the conservative parameters `retries = 2`,
`baseDelay = 2000`.  A successful attempt yields the object URL. -/
def fetchVideoBlob (fetchAttempt : ℕ → Except String String) :
    RetryTrace String :=
  withRetry fetchAttempt 2 2000

/-- Environment of one `generateTextVideo` call: outcomes of the job
submission attempts, the status-check responses, and the asset-fetch
attempts.  Every entry consumed from it is one network call. -/
structure VideoGenEnv where
  submit : ℕ → Except String Operation
  poll : List PollResponse
  fetch : ℕ → Except String String

/-- Observable result of `generateTextVideo`: the returned object URL
or thrown error message, plus the number of network calls issued. -/
structure VideoGenResult where
  result : Except String String
  networkCalls : ℕ
deriving DecidableEq

/-- Fallback message used when a done operation carries an error whose
message is falsy (geminiService.ts line 215). -/
def internalErrorMsg : String :=
  "The video generation service encountered an internal error."

/-- Model of `generateTextVideo` (geminiService.ts lines 178-219).
An empty `imageBase64` is rejected before any network activity; the
job submission is wrapped in the default retry policy (3, 3000); the
resulting operation is polled; a done operation with no error and a
truthy video URI is downloaded via `fetchVideoBlob`; otherwise the
operation error (or a generic message) is thrown.  Prompt and seed
image construction (`createBlankImage`, `cleanBase64`) are pure local
computations that do not affect control flow and are elided. -/
def generateTextVideo (text imageBase64 imageMimeType promptStyle : String)
    (env : VideoGenEnv) : VideoGenResult :=
  if imageBase64 = "" then
    ⟨Except.error "Image generation failed, cannot generate video.", 0⟩
  else
    let sub := withRetry env.submit 3 3000
    match sub.result with
    | Except.error e => ⟨Except.error e, sub.attempts⟩
    | Except.ok operation =>
      let pr := pollForVideo env.poll operation
      let callsSoFar := sub.attempts + pr.statusCalls
      match pr.outcome with
      | PollOutcome.timeout =>
        ⟨Except.error "Video generation timed out. Please try again.", callsSoFar⟩
      | PollOutcome.failure m => ⟨Except.error m, callsSoFar⟩
      | PollOutcome.exhausted =>
        ⟨Except.error "model artifact: poll trace exhausted", callsSoFar⟩
      | PollOutcome.success op =>
        if op.error = none ∧ jsTruthy op.videoUri = true then
          let f := fetchVideoBlob env.fetch
          ⟨f.result, callsSoFar + f.attempts⟩
        else
          match op.error with
          | some m => ⟨Except.error (jsOrDefault m internalErrorMsg), callsSoFar⟩
          | none => ⟨Except.error "Unable to generate video.", callsSoFar⟩

/- ===== generateTextImage request construction
   (geminiService.ts lines 79-111) ===== -/

/-- One content part of the outgoing image-generation request. -/
inductive RequestPart where
  | inlineData (data : String) (mimeType : String)
  | text (s : String)
deriving DecidableEq

/-- Default typography instruction (geminiService.ts line 86). -/
def defaultTypoInstruction : String :=
  "High-quality, creative typography that perfectly matches the visual environment. Legible and artistic."

/-- Model of the `typoInstruction` selection (geminiService.ts lines
84-86): the caller-supplied prompt is used when present (truthy) and
nonempty after trimming, else the default. -/
def typoInstructionOf : Option String → String
  | none => defaultTypoInstruction
  | some t =>
    if t ≠ "" ∧ 0 < (jsTrim t).length then t else defaultTypoInstruction

/-- The text part used when a reference image is present
(geminiService.ts lines 97-103). -/
def refPromptText (text typoInstruction style : String) : String :=
  "Analyze the visual style, color palette, lighting, and textures of this reference image. \n        Create a NEW high-resolution cinematic image featuring the text \"" ++
  text ++ "\" written in the center. \n        Typography Instruction: " ++
  typoInstruction ++
  ".\n        The text should look like it perfectly belongs in the world of the reference image.\n        Additional style instructions: " ++
  style ++ "."

/-- The self-contained text part used with no reference image
(geminiService.ts lines 105-110). -/
def noRefPromptText (text typoInstruction style : String) : String :=
  "A hyper-realistic, cinematic, high-resolution image featuring the text \"" ++
  text ++ "\". \n        Typography Instruction: " ++ typoInstruction ++
  ". \n        Visual Style: " ++ style ++
  ". \n        The typography must be legible, artistic, and centered. Lighting should be dramatic and atmospheric. 8k resolution, detailed texture."

/-- Model of the `parts` array construction in `generateTextImage`
(geminiService.ts lines 82-111).  A truthy reference image is split on
";base64," into media-type prefix and payload, pushed as an
inline-data part, and followed by the reference-style text part; with
no (or a falsy) reference image a single self-contained text part is
pushed. -/
def generateTextImageParts (text style : String)
    (typographyPrompt referenceImage : Option String) : List RequestPart :=
  let typoInstruction := typoInstructionOf typographyPrompt
  match referenceImage with
  | some r =>
    if r ≠ "" then
      let pieces := r.splitOn ";base64,"
      let mimeTypePart := pieces.headD ""
      let data := pieces.getD 1 ""
      [RequestPart.inlineData data (mimeTypePart.replace "data:" ""),
       RequestPart.text (refPromptText text typoInstruction style)]
    else [RequestPart.text (noRefPromptText text typoInstruction style)]
  | none => [RequestPart.text (noRefPromptText text typoInstruction style)]

/- ===== generateStyleSuggestion (geminiService.ts lines 52-70)
   and getRandomStyle (utils.ts) ===== -/

/-- The fixed curated fallback style list of `getRandomStyle`
(utils.ts). -/
def fallbackStyles : List String :=
  ["formed by fluffy white clouds in a deep blue summer sky",
   "written in glowing constellations against a dark nebula galaxy",
   "arranged using colorful autumn leaves on wet green grass",
   "reflected in cyberpunk neon puddles on a rainy street",
   "drawn with latte art foam in a ceramic coffee cup",
   "glowing as ancient magical runes carved into a dark cave wall",
   "displayed on a futuristic translucent holographic interface",
   "sculpted from melting surrealist gold in a desert landscape",
   "arranged with intricate mechanical gears and steampunk machinery",
   "formed by bioluminescent jellyfish in the deep ocean",
   "composed of vibrant colorful smoke swirling in a dark room",
   "carved into the bark of an ancient mossy oak tree",
   "made of sparkling diamonds scattered on black velvet"]

/-- Model of `getRandomStyle` (utils.ts): `Math.floor(Math.random() *
styles.length)` always lands in `0..12`, so the random draw is
modelled as an index into the 13-element list. -/
def getRandomStyle (randomDraw : Fin 13) : String :=
  fallbackStyles.get (Fin.cast (by decide) randomDraw)

/-- Outcome of the remote call inside `generateStyleSuggestion`:
either a thrown error, or a response whose optional `text` field is
given. -/
inductive RemoteTextResult where
  | failure (msg : String)
  | success (text : Option String)
deriving DecidableEq

/-- Model of `generateStyleSuggestion` (geminiService.ts lines 52-70):
on a thrown error the catch block returns a random style; on success
it returns `response.text?.trim() || getRandomStyle()`, so a missing
or whitespace-only text also degrades to the random style. -/
def generateStyleSuggestion (remote : RemoteTextResult)
    (randomDraw : Fin 13) : String :=
  match remote with
  | RemoteTextResult.failure _ => getRandomStyle randomDraw
  | RemoteTextResult.success t =>
    match t with
    | none => getRandomStyle randomDraw
    | some s =>
      if jsTrim s = "" then getRandomStyle randomDraw else jsTrim s

/- ===== createGifFromVideo (utils.ts) ===== -/

/-- Model of `const duration = video.duration || 5` (utils.ts): a
falsy (zero) reported duration is replaced by the 5-second default. -/
def effectiveGifDuration (d : ℚ) : ℚ :=
  if d = 0 then 5 else d

/-- Model of `Math.floor(duration * fps)` with the fixed sample rate
`fps = 10` (utils.ts). -/
def totalFrames (d : ℚ) : ℕ :=
  Nat.floor (effectiveGifDuration d * 10)

/-- Model of the output-height computation (utils.ts): scale to the
fixed 400px width preserving aspect ratio, then force evenness. -/
def gifHeight (videoWidth videoHeight : ℕ) : ℕ :=
  let h := Nat.floor (((videoHeight : ℚ) / (videoWidth : ℚ)) * 400)
  if h % 2 ≠ 0 then h - 1 else h

/-- One frame appended to the encoder: the seek timestamp (seconds),
output dimensions, and the per-frame display delay `1000 / fps` ms. -/
structure GifFrameRecord where
  timestamp : ℚ
  width : ℕ
  height : ℕ
  delay : ℚ
deriving DecidableEq

/-- The bytes "GIF89a" opening the container. -/
def gifHeaderBytes : List ℕ := [71, 73, 70, 56, 57, 97]

/-- Modelled from the spec: the external `gifenc` incremental encoder
(not part of this repository) assembles a byte container from a
header, the appended per-frame indexed pixel data (one palette index
per output pixel), and a trailer byte; `finish`/`bytes` return the
assembled container. -/
def encodeGifFrames (frames : List GifFrameRecord) : List ℕ :=
  gifHeaderBytes ++
  frames.flatMap (fun f => List.replicate (f.width * f.height) 0) ++ [59]

/-- The finalized downloadable blob: bytes plus declared media type. -/
structure GifBlob where
  bytes : List ℕ
  type : String
deriving DecidableEq

/-- Observable result of `createGifFromVideo`: the frames appended to
the encoder, in order, and the finalized blob. -/
structure GifResult where
  frames : List GifFrameRecord
  blob : GifBlob
deriving DecidableEq

/-- Model of `createGifFromVideo` (utils.ts): compute the frame count
from the effective duration at 10 fps, seek frame `i` to timestamp
`i / 10` seconds, append each frame with delay `1000 / 10` ms, and
finalize into a blob declared as `image/gif`. -/
def createGifFromVideo (duration : ℚ) (videoWidth videoHeight : ℕ) :
    GifResult :=
  let width := 400
  let height := gifHeight videoWidth videoHeight
  let frames := (List.range (totalFrames duration)).map
    (fun i : ℕ => (⟨(i : ℚ) / 10, width, height, 1000 / 10⟩ : GifFrameRecord))
  ⟨frames, ⟨encodeGifFrames frames, "image/gif"⟩⟩

/- ===== Helper lemmas ===== -/

theorem withRetryGo_error_propagate {α : Type} (fn : ℕ → Except String α)
    (idx retries baseDelay : ℕ) (e : String)
    (hfn : fn idx = Except.error e) (hr : isRetryable e = false) :
    withRetryGo fn idx retries baseDelay = ⟨Except.error e, 1, []⟩ := by
  cases retries with
  | zero => simp [withRetryGo, hfn]
  | succ r => simp [withRetryGo, hfn, hr]

theorem withRetryGo_transient_spec {α : Type} (fn : ℕ → Except String α) :
    ∀ (retries idx baseDelay : ℕ),
      (∀ k, k < retries →
        ∃ e, fn (idx + k) = Except.error e ∧ isRetryable e = true) →
      (withRetryGo fn idx retries baseDelay).attempts = retries + 1 ∧
      (withRetryGo fn idx retries baseDelay).delays =
        (List.range retries).map (fun k => baseDelay * 2 ^ k) := by
  intro retries
  induction retries with
  | zero =>
    intro idx baseDelay _
    cases hf : fn idx <;> simp [withRetryGo, hf]
  | succ r ih =>
    intro idx baseDelay h
    obtain ⟨e, he, hr⟩ := h 0 (Nat.succ_pos r)
    rw [Nat.add_zero] at he
    have ihh := ih (idx + 1) (baseDelay * 2) (fun k hk => by
      have hx := h (k + 1) (by omega)
      rwa [show idx + (k + 1) = idx + 1 + k by omega] at hx)
    constructor
    · simp [withRetryGo, he, hr, ihh.1]
    · simp only [withRetryGo, he, hr, if_true]
      rw [ihh.2, List.range_succ_eq_map, List.map_cons, List.map_map]
      congr 1
      · simp
      · have hfe : (fun k => baseDelay * 2 * 2 ^ k) =
            ((fun k => baseDelay * 2 ^ k) ∘ Nat.succ) := by
          funext k
          simp [Function.comp, pow_succ]
          ring
        rw [hfe]

theorem pollGo_done (resps : List PollResponse) (op : Operation)
    (elapsed calls : ℕ) (hd : op.done = true) :
    pollGo resps op elapsed calls =
      ⟨PollOutcome.success op, elapsed, calls⟩ := by
  cases resps <;> simp [pollGo, hd]

theorem pollGo_timeout_eq (resps : List PollResponse) (op : Operation)
    (elapsed calls : ℕ) (hd : op.done = false)
    (ht : MAX_WAIT_TIME < elapsed) :
    pollGo resps op elapsed calls = ⟨PollOutcome.timeout, elapsed, calls⟩ := by
  cases resps <;> simp [pollGo, hd, ht]

theorem pollGo_nil_pending (op : Operation) (elapsed calls : ℕ)
    (hd : op.done = false) (ht : ¬ MAX_WAIT_TIME < elapsed) :
    pollGo [] op elapsed calls = ⟨PollOutcome.exhausted, elapsed, calls⟩ := by
  simp [pollGo, hd, ht]

theorem pollGo_cons_ok (rest : List PollResponse) (op next : Operation)
    (elapsed calls : ℕ) (hd : op.done = false)
    (ht : ¬ MAX_WAIT_TIME < elapsed) :
    pollGo (PollResponse.ok next :: rest) op elapsed calls =
      pollGo rest next (elapsed + POLL_INTERVAL) (calls + 1) := by
  simp [pollGo, hd, ht]

theorem pollGo_cons_err (rest : List PollResponse) (op : Operation)
    (elapsed calls : ℕ) (m : String) (hd : op.done = false)
    (ht : ¬ MAX_WAIT_TIME < elapsed) :
    pollGo (PollResponse.err m :: rest) op elapsed calls =
      (if isTransientPollError m then
        pollGo rest op (elapsed + POLL_INTERVAL) (calls + 1)
      else ⟨PollOutcome.failure m, elapsed + POLL_INTERVAL, calls + 1⟩) := by
  simp [pollGo, hd, ht]

theorem pollGo_success_done :
    ∀ (resps : List PollResponse) (op : Operation) (elapsed calls : ℕ)
      (o : Operation),
      (pollGo resps op elapsed calls).outcome = PollOutcome.success o →
      o.done = true := by
  intro resps
  induction resps with
  | nil =>
    intro op elapsed calls o h
    by_cases hd : op.done
    · rw [pollGo_done _ _ _ _ hd] at h
      obtain rfl : op = o := by simpa using h
      exact hd
    · have hd2 : op.done = false := by simpa using hd
      by_cases ht : MAX_WAIT_TIME < elapsed
      · rw [pollGo_timeout_eq _ _ _ _ hd2 ht] at h
        simp at h
      · rw [pollGo_nil_pending _ _ _ hd2 ht] at h
        simp at h
  | cons r rest ih =>
    intro op elapsed calls o h
    by_cases hd : op.done
    · rw [pollGo_done _ _ _ _ hd] at h
      obtain rfl : op = o := by simpa using h
      exact hd
    · have hd2 : op.done = false := by simpa using hd
      by_cases ht : MAX_WAIT_TIME < elapsed
      · rw [pollGo_timeout_eq _ _ _ _ hd2 ht] at h
        simp at h
      · cases r with
        | ok next =>
          rw [pollGo_cons_ok _ _ _ _ _ hd2 ht] at h
          exact ih next _ _ o h
        | err m =>
          rw [pollGo_cons_err _ _ _ _ _ hd2 ht] at h
          by_cases hm : isTransientPollError m
          · rw [if_pos hm] at h
            exact ih op _ _ o h
          · rw [if_neg hm] at h
            simp at h

theorem pollGo_failure_not_transient :
    ∀ (resps : List PollResponse) (op : Operation) (elapsed calls : ℕ)
      (m : String),
      (pollGo resps op elapsed calls).outcome = PollOutcome.failure m →
      isTransientPollError m = false := by
  intro resps
  induction resps with
  | nil =>
    intro op elapsed calls m h
    by_cases hd : op.done
    · rw [pollGo_done _ _ _ _ hd] at h
      simp at h
    · have hd2 : op.done = false := by simpa using hd
      by_cases ht : MAX_WAIT_TIME < elapsed
      · rw [pollGo_timeout_eq _ _ _ _ hd2 ht] at h
        simp at h
      · rw [pollGo_nil_pending _ _ _ hd2 ht] at h
        simp at h
  | cons r rest ih =>
    intro op elapsed calls m h
    by_cases hd : op.done
    · rw [pollGo_done _ _ _ _ hd] at h
      simp at h
    · have hd2 : op.done = false := by simpa using hd
      by_cases ht : MAX_WAIT_TIME < elapsed
      · rw [pollGo_timeout_eq _ _ _ _ hd2 ht] at h
        simp at h
      · cases r with
        | ok next =>
          rw [pollGo_cons_ok _ _ _ _ _ hd2 ht] at h
          exact ih next _ _ m h
        | err m0 =>
          rw [pollGo_cons_err _ _ _ _ _ hd2 ht] at h
          by_cases hm : isTransientPollError m0
          · rw [if_pos hm] at h
            exact ih op _ _ m h
          · rw [if_neg hm] at h
            obtain rfl : m0 = m := by simpa using h
            simpa using hm

theorem pollGo_timeout_gt :
    ∀ (resps : List PollResponse) (op : Operation) (elapsed calls : ℕ),
      (pollGo resps op elapsed calls).outcome = PollOutcome.timeout →
      MAX_WAIT_TIME < (pollGo resps op elapsed calls).elapsed := by
  intro resps
  induction resps with
  | nil =>
    intro op elapsed calls h
    by_cases hd : op.done
    · rw [pollGo_done _ _ _ _ hd] at h
      simp at h
    · have hd2 : op.done = false := by simpa using hd
      by_cases ht : MAX_WAIT_TIME < elapsed
      · rw [pollGo_timeout_eq _ _ _ _ hd2 ht]
        simpa using ht
      · rw [pollGo_nil_pending _ _ _ hd2 ht] at h
        simp at h
  | cons r rest ih =>
    intro op elapsed calls h
    by_cases hd : op.done
    · rw [pollGo_done _ _ _ _ hd] at h
      simp at h
    · have hd2 : op.done = false := by simpa using hd
      by_cases ht : MAX_WAIT_TIME < elapsed
      · rw [pollGo_timeout_eq _ _ _ _ hd2 ht]
        simpa using ht
      · cases r with
        | ok next =>
          rw [pollGo_cons_ok _ _ _ _ _ hd2 ht] at h ⊢
          exact ih next _ _ h
        | err m =>
          rw [pollGo_cons_err _ _ _ _ _ hd2 ht] at h ⊢
          by_cases hm : isTransientPollError m
          · rw [if_pos hm] at h ⊢
            exact ih op _ _ h
          · rw [if_neg hm] at h
            simp at h

theorem pollGo_elapsed_le :
    ∀ (resps : List PollResponse) (op : Operation) (elapsed calls : ℕ),
      elapsed ≤ MAX_WAIT_TIME + POLL_INTERVAL →
      (pollGo resps op elapsed calls).elapsed ≤
        MAX_WAIT_TIME + POLL_INTERVAL := by
  intro resps
  induction resps with
  | nil =>
    intro op elapsed calls hle
    by_cases hd : op.done
    · rw [pollGo_done _ _ _ _ hd]
      simpa using hle
    · have hd2 : op.done = false := by simpa using hd
      by_cases ht : MAX_WAIT_TIME < elapsed
      · rw [pollGo_timeout_eq _ _ _ _ hd2 ht]
        simpa using hle
      · rw [pollGo_nil_pending _ _ _ hd2 ht]
        simpa using hle
  | cons r rest ih =>
    intro op elapsed calls hle
    by_cases hd : op.done
    · rw [pollGo_done _ _ _ _ hd]
      simpa using hle
    · have hd2 : op.done = false := by simpa using hd
      by_cases ht : MAX_WAIT_TIME < elapsed
      · rw [pollGo_timeout_eq _ _ _ _ hd2 ht]
        simpa using hle
      · have hstep : elapsed + POLL_INTERVAL ≤ MAX_WAIT_TIME + POLL_INTERVAL :=
          Nat.add_le_add_right (Nat.not_lt.mp ht) POLL_INTERVAL
        cases r with
        | ok next =>
          rw [pollGo_cons_ok _ _ _ _ _ hd2 ht]
          exact ih next _ _ hstep
        | err m =>
          rw [pollGo_cons_err _ _ _ _ _ hd2 ht]
          by_cases hm : isTransientPollError m
          · rw [if_pos hm]
            exact ih op _ _ hstep
          · rw [if_neg hm]
            simpa using hstep

theorem pollGo_exhausted_le :
    ∀ (resps : List PollResponse) (op : Operation) (elapsed calls : ℕ),
      (pollGo resps op elapsed calls).outcome = PollOutcome.exhausted →
      elapsed + POLL_INTERVAL * resps.length ≤ MAX_WAIT_TIME := by
  intro resps
  induction resps with
  | nil =>
    intro op elapsed calls h
    by_cases hd : op.done
    · rw [pollGo_done _ _ _ _ hd] at h
      simp at h
    · have hd2 : op.done = false := by simpa using hd
      by_cases ht : MAX_WAIT_TIME < elapsed
      · rw [pollGo_timeout_eq _ _ _ _ hd2 ht] at h
        simp at h
      · simpa using Nat.not_lt.mp ht
  | cons r rest ih =>
    intro op elapsed calls h
    by_cases hd : op.done
    · rw [pollGo_done _ _ _ _ hd] at h
      simp at h
    · have hd2 : op.done = false := by simpa using hd
      by_cases ht : MAX_WAIT_TIME < elapsed
      · rw [pollGo_timeout_eq _ _ _ _ hd2 ht] at h
        simp at h
      · rw [List.length_cons, Nat.mul_succ]
        cases r with
        | ok next =>
          rw [pollGo_cons_ok _ _ _ _ _ hd2 ht] at h
          have := ih next _ _ h
          omega
        | err m =>
          rw [pollGo_cons_err _ _ _ _ _ hd2 ht] at h
          by_cases hm : isTransientPollError m
          · rw [if_pos hm] at h
            have := ih op _ _ h
            omega
          · rw [if_neg hm] at h
            simp at h

theorem getRandomStyle_mem (i : Fin 13) : getRandomStyle i ∈ fallbackStyles := by
  simp only [getRandomStyle]
  exact List.get_mem _ _ _

/- ===== Claim theorems ===== -/

/-- Claim C1: every `pollForVideo` invocation never returns an
operation whose done flag is false; it terminates within
`MAX_WAIT_TIME + POLL_INTERVAL` of entry (counting the slept waits),
either by returning a done operation, by propagating a non-transient
status-check failure, or by the distinct timeout error raised at a
loop top once elapsed time exceeds the 5-minute ceiling; in
particular a trace long enough to cover the ceiling (31 responses)
can never leave the loop pending. -/
theorem pollForVideo_terminates_within_ceiling :
    ∀ (resps : List PollResponse) (op : Operation),
      (∀ o, (pollForVideo resps op).outcome = PollOutcome.success o →
        o.done = true) ∧
      (pollForVideo resps op).elapsed ≤ MAX_WAIT_TIME + POLL_INTERVAL ∧
      (∀ m, (pollForVideo resps op).outcome = PollOutcome.failure m →
        isTransientPollError m = false) ∧
      ((pollForVideo resps op).outcome = PollOutcome.timeout →
        MAX_WAIT_TIME < (pollForVideo resps op).elapsed) ∧
      (31 ≤ resps.length →
        (pollForVideo resps op).outcome ≠ PollOutcome.exhausted) := by
  intro resps op
  refine ⟨fun o h => pollGo_success_done resps op 0 0 o h,
    pollGo_elapsed_le resps op 0 0 (Nat.zero_le _),
    fun m h => pollGo_failure_not_transient resps op 0 0 m h,
    fun h => pollGo_timeout_gt resps op 0 0 h,
    fun hlen hex => ?_⟩
  have hb := pollGo_exhausted_le resps op 0 0 hex
  simp only [POLL_INTERVAL, MAX_WAIT_TIME, Nat.zero_add] at hb
  omega

/-- Witness for C1 at a concrete trace: the elapsed bound holds, and
the returned operation of a successful poll is indeed done. -/
theorem pollForVideo_terminates_within_ceiling_witness :
    (pollForVideo [PollResponse.ok ⟨true, none, some "uri"⟩]
      ⟨false, none, none⟩).elapsed ≤ MAX_WAIT_TIME + POLL_INTERVAL ∧
    (⟨true, none, some "uri"⟩ : Operation).done = true := by
  refine ⟨(pollForVideo_terminates_within_ceiling
    [PollResponse.ok ⟨true, none, some "uri"⟩] ⟨false, none, none⟩).2.1, ?_⟩
  exact (pollForVideo_terminates_within_ceiling
    [PollResponse.ok ⟨true, none, some "uri"⟩] ⟨false, none, none⟩).1
    ⟨true, none, some "uri"⟩ (by decide)

/-- Claim C2: when the wrapped operation fails with a
transient-classified failure on every attempt while retries remain,
`withRetry` attempts it exactly `retries + 1` times in total and waits
`baseDelay * 2 ^ k` before the `(k+1)`-th retry. -/
theorem withRetry_transient_exact_attempts_backoff :
    ∀ (α : Type) (fn : ℕ → Except String α) (retries baseDelay : ℕ),
      (∀ k, k < retries →
        ∃ e, fn k = Except.error e ∧ isRetryable e = true) →
      (withRetry fn retries baseDelay).attempts = retries + 1 ∧
      (withRetry fn retries baseDelay).delays =
        (List.range retries).map (fun k => baseDelay * 2 ^ k) := by
  intro α fn retries baseDelay h
  exact withRetryGo_transient_spec fn retries 0 baseDelay (fun k hk => by
    simpa using h k hk)

/-- Witness for C2 under the default policy (3 retries, 3000 ms base
delay): 4 attempts and the successive waits 3 s, 6 s, 12 s. -/
theorem withRetry_transient_exact_attempts_backoff_witness :
    (withRetry (fun _ => (Except.error "503" : Except String String))
      3 3000).attempts = 4 ∧
    (withRetry (fun _ => (Except.error "503" : Except String String))
      3 3000).delays = [3000, 6000, 12000] := by
  have h := withRetry_transient_exact_attempts_backoff String
    (fun _ => Except.error "503") 3 3000
    (fun k _ => ⟨"503", rfl, by decide⟩)
  exact ⟨h.1, by rw [h.2]; decide⟩

/-- Counterexample to C3 as stated: a status-check failure containing
"429" is classified transient by the retrier, yet the poller does not
continue waiting on it — it propagates it immediately as a failure,
even though a healthy done response was next in the trace. -/
theorem pollForVideo_retrier_classification_counterexample :
    isRetryable "429" = true ∧
    isTransientPollError "429" = false ∧
    (pollForVideo [PollResponse.err "429",
        PollResponse.ok ⟨true, none, some "uri"⟩]
      ⟨false, none, none⟩).outcome = PollOutcome.failure "429" := by
  exact ⟨by decide, by decide, by decide⟩

/-- Claim C3 as amended: during polling, a status-check failure makes
the loop continue waiting (same pending operation, no retry budget of
any kind is tracked or decremented) if and only if it matches the
poller's own transient classification ("503", "Deadline expired",
"UNAVAILABLE"); every other failure — including "429" rate limits,
which the retrier alone treats as transient — propagates immediately
and terminates the poll.  The poller's classification is contained in
the retrier's. -/
theorem pollForVideo_transient_statusCheck_continue_iff :
    (∀ (rest : List PollResponse) (op : Operation) (elapsed calls : ℕ)
      (m : String), op.done = false → elapsed ≤ MAX_WAIT_TIME →
      pollGo (PollResponse.err m :: rest) op elapsed calls =
        (if isTransientPollError m then
          pollGo rest op (elapsed + POLL_INTERVAL) (calls + 1)
        else ⟨PollOutcome.failure m, elapsed + POLL_INTERVAL, calls + 1⟩)) ∧
    (∀ m, isTransientPollError m = true → isRetryable m = true) := by
  constructor
  · intro rest op elapsed calls m hd hle
    exact pollGo_cons_err rest op elapsed calls m hd (by omega)
  · intro m h
    simp only [isTransientPollError, Bool.or_eq_true] at h
    simp only [isRetryable, Bool.or_eq_true]
    tauto

/-- Witness for the amended C3 at a concrete transient failure. -/
theorem pollForVideo_transient_statusCheck_continue_iff_witness :
    pollGo [PollResponse.err "UNAVAILABLE"] ⟨false, none, none⟩ 0 0 =
      (if isTransientPollError "UNAVAILABLE" then
        pollGo [] ⟨false, none, none⟩ (0 + POLL_INTERVAL) (0 + 1)
      else ⟨PollOutcome.failure "UNAVAILABLE", 0 + POLL_INTERVAL, 0 + 1⟩) ∧
    isRetryable "UNAVAILABLE" = true := by
  refine ⟨pollForVideo_transient_statusCheck_continue_iff.1 []
    ⟨false, none, none⟩ 0 0 "UNAVAILABLE" rfl (by decide),
    pollForVideo_transient_statusCheck_continue_iff.2 "UNAVAILABLE"
      (by decide)⟩

/-- Counterexample to C4 as stated: the asset download is not exempt
from failure classification — a fetch failure whose message matches
no transient pattern is propagated on the first attempt with no
retries, although two retries remained. -/
theorem fetchVideoBlob_classification_counterexample :
    isRetryable "Failed to fetch video content: Not Found" = false ∧
    (fetchVideoBlob (fun _ =>
      Except.error "Failed to fetch video content: Not Found")).attempts = 1 ∧
    (fetchVideoBlob (fun _ =>
      Except.error "Failed to fetch video content: Not Found")).delays = [] := by
  exact ⟨by decide, by decide, by decide⟩

/-- Claim C4 as amended: the asset download is wrapped in the shared
retrier with the distinct, more conservative parameters of 2 retries
and a 2000 ms base delay, and the same transient classification
applies: transient-classified failures exhaust 3 attempts with waits
of 2 s then 4 s, while a non-transient failure propagates unchanged on
the first attempt. -/
theorem fetchVideoBlob_conservative_policy :
    (∀ fetchAttempt : ℕ → Except String String,
      (∀ k, k < 2 →
        ∃ e, fetchAttempt k = Except.error e ∧ isRetryable e = true) →
      (fetchVideoBlob fetchAttempt).attempts = 3 ∧
      (fetchVideoBlob fetchAttempt).delays = [2000, 4000]) ∧
    (∀ (fetchAttempt : ℕ → Except String String) (e : String),
      fetchAttempt 0 = Except.error e → isRetryable e = false →
      fetchVideoBlob fetchAttempt = ⟨Except.error e, 1, []⟩) := by
  constructor
  · intro fetchAttempt h
    have hs := withRetryGo_transient_spec fetchAttempt 2 0 2000 (fun k hk => by
      simpa using h k hk)
    refine ⟨hs.1, ?_⟩
    have h2 := hs.2
    rw [show (List.range 2).map (fun k => 2000 * 2 ^ k) = [2000, 4000]
      from by decide] at h2
    exact h2
  · intro fetchAttempt e he hr
    exact withRetryGo_error_propagate fetchAttempt 0 2 2000 e he hr

/-- Witness for the amended C4: a persistently overloaded fetch uses
3 attempts; a non-transient fetch failure propagates at once. -/
theorem fetchVideoBlob_conservative_policy_witness :
    (fetchVideoBlob (fun _ =>
      (Except.error "503" : Except String String))).attempts = 3 ∧
    fetchVideoBlob (fun _ =>
      (Except.error "Video load failed" : Except String String)) =
      ⟨Except.error "Video load failed", 1, []⟩ := by
  refine ⟨(fetchVideoBlob_conservative_policy.1 (fun _ => Except.error "503")
    (fun k _ => ⟨"503", rfl, by decide⟩)).1,
    fetchVideoBlob_conservative_policy.2
      (fun _ => Except.error "Video load failed") "Video load failed" rfl
      (by decide)⟩

/-- Claim C5: video generation with empty seed-image bytes fails
immediately with the precondition error and issues zero network
calls, whatever the environment would have answered. -/
theorem generateTextVideo_empty_seed_precondition :
    ∀ (text imageMimeType promptStyle : String) (env : VideoGenEnv),
      generateTextVideo text "" imageMimeType promptStyle env =
        ⟨Except.error "Image generation failed, cannot generate video.", 0⟩ := by
  intro text imageMimeType promptStyle env
  simp [generateTextVideo]

/-- Claim C6: at the point any non-retryable failure occurs,
`withRetry` propagates that failure unchanged with a single attempt
from that point and no delay, regardless of the remaining retry and
delay parameters. -/
theorem withRetry_nonRetryable_propagates_immediately :
    ∀ (α : Type) (fn : ℕ → Except String α) (idx retries baseDelay : ℕ)
      (e : String),
      fn idx = Except.error e → isRetryable e = false →
      withRetryGo fn idx retries baseDelay = ⟨Except.error e, 1, []⟩ := by
  intro α fn idx retries baseDelay e he hr
  exact withRetryGo_error_propagate fn idx retries baseDelay e he hr

/-- Witness for C6 at a concrete non-retryable failure under the
default policy. -/
theorem withRetry_nonRetryable_propagates_immediately_witness :
    withRetryGo
      (fun _ => (Except.error "No image generated" : Except String String))
      0 3 3000 = ⟨Except.error "No image generated", 1, []⟩ :=
  withRetry_nonRetryable_propagates_immediately String _ 0 3 3000
    "No image generated" rfl (by decide)

/-- Claim C7: with a (truthy) reference image the outgoing request is
exactly an inline-data part followed by a text part, in that order;
with no reference image exactly one text part is sent. -/
theorem generateTextImage_parts_ordering :
    ∀ (text style : String) (typographyPrompt : Option String) (r : String),
      (r ≠ "" → ∃ d m t,
        generateTextImageParts text style typographyPrompt (some r) =
          [RequestPart.inlineData d m, RequestPart.text t]) ∧
      (∃ t, generateTextImageParts text style typographyPrompt none =
        [RequestPart.text t]) := by
  intro text style typographyPrompt r
  constructor
  · intro hr
    refine ⟨(r.splitOn ";base64,").getD 1 "",
      ((r.splitOn ";base64,").headD "").replace "data:" "",
      refPromptText text (typoInstructionOf typographyPrompt) style, ?_⟩
    simp [generateTextImageParts, hr]
  · exact ⟨noRefPromptText text (typoInstructionOf typographyPrompt) style, rfl⟩

/-- Witness for C7 at a concrete reference image. -/
theorem generateTextImage_parts_ordering_witness :
    (∃ d m t, generateTextImageParts "HELLO" "misty" none
      (some "data:image/png;base64,AAAA") =
      [RequestPart.inlineData d m, RequestPart.text t]) ∧
    (∃ t, generateTextImageParts "HELLO" "misty" none none =
      [RequestPart.text t]) :=
  ⟨(generateTextImage_parts_ordering "HELLO" "misty" none
      "data:image/png;base64,AAAA").1 (by decide),
   (generateTextImage_parts_ordering "HELLO" "misty" none "x").2⟩

/-- Claim C8: whenever the remote style call fails, or returns no
text, or returns text that trims to empty (whitespace-only), the
suggestion completes normally with a member of the fixed curated
fallback list. -/
theorem generateStyleSuggestion_fallback_membership :
    ∀ (m : String) (i : Fin 13) (s : String),
      generateStyleSuggestion (RemoteTextResult.failure m) i ∈
        fallbackStyles ∧
      generateStyleSuggestion (RemoteTextResult.success none) i ∈
        fallbackStyles ∧
      (jsTrim s = "" →
        generateStyleSuggestion (RemoteTextResult.success (some s)) i ∈
          fallbackStyles) := by
  intro m i s
  refine ⟨getRandomStyle_mem i, getRandomStyle_mem i, fun h => ?_⟩
  simp only [generateStyleSuggestion]
  rw [if_pos h]
  exact getRandomStyle_mem i

/-- Witness for C8 at a whitespace-only remote response. -/
theorem generateStyleSuggestion_fallback_membership_witness :
    generateStyleSuggestion (RemoteTextResult.success (some "  "))
      (0 : Fin 13) ∈ fallbackStyles :=
  (generateStyleSuggestion_fallback_membership "boom" (0 : Fin 13) "  ").2.2
    (by decide)

/-- Counterexample to C9 as stated: a video whose reported duration is
0 seconds is transcoded with 50 sampled frames (the code substitutes
the 5-second default for a falsy duration), not floor(0 * 10) = 0. -/
theorem createGifFromVideo_zero_duration_counterexample :
    (createGifFromVideo 0 1280 720).frames.length = 50 ∧
    Nat.floor ((0 : ℚ) * 10) = 0 := by
  constructor
  · have h5 : effectiveGifDuration 0 = 5 := by simp [effectiveGifDuration]
    have htf : totalFrames 0 = 50 := by
      simp only [totalFrames, h5]
      rw [show ((5 : ℚ) * 10) = 50 from by norm_num]
      simp
    simp [createGifFromVideo, htf]
  · simp

/-- Claim C9 as amended: for every positive reported duration d, the
transcoder samples exactly floor(d * 10) frames, frame i carrying
timestamp i / 10 seconds, appended in strictly increasing timestamp
order, and the finalized blob is non-empty and declared `image/gif`
(a falsy zero duration is first replaced by the 5-second default). -/
theorem createGifFromVideo_sampling_spec :
    ∀ (d : ℚ) (videoWidth videoHeight : ℕ), 0 < d →
      (createGifFromVideo d videoWidth videoHeight).frames.length =
        Nat.floor (d * 10) ∧
      ((createGifFromVideo d videoWidth videoHeight).frames.map
        GifFrameRecord.timestamp) =
        (List.range (Nat.floor (d * 10))).map (fun i : ℕ => (i : ℚ) / 10) ∧
      ((createGifFromVideo d videoWidth videoHeight).frames.map
        GifFrameRecord.timestamp).Pairwise (· < ·) ∧
      (createGifFromVideo d videoWidth videoHeight).blob.bytes ≠ [] ∧
      (createGifFromVideo d videoWidth videoHeight).blob.type = "image/gif" := by
  intro d vw vh hd
  have hne : d ≠ 0 := ne_of_gt hd
  have htf : totalFrames d = Nat.floor (d * 10) := by
    simp [totalFrames, effectiveGifDuration, hne]
  have hframes : (createGifFromVideo d vw vh).frames =
      (List.range (totalFrames d)).map
        (fun i : ℕ => (⟨(i : ℚ) / 10, 400, gifHeight vw vh, 1000 / 10⟩ :
          GifFrameRecord)) := rfl
  refine ⟨?_, ?_, ?_, ?_, rfl⟩
  · rw [hframes, List.length_map, List.length_range, htf]
  · rw [hframes, List.map_map, htf]
    rfl
  · rw [hframes, List.map_map]
    refine List.Pairwise.map _ (fun a b hab => ?_) (List.pairwise_lt_range _)
    show ((a : ℚ) / 10) < ((b : ℚ) / 10)
    exact div_lt_div_of_pos_right (by exact_mod_cast hab) (by norm_num)
  · show encodeGifFrames _ ≠ []
    simp [encodeGifFrames, gifHeaderBytes]

/-- Witness for the amended C9 at a 5-second input: exactly 50 frames
and the `image/gif` media type. -/
theorem createGifFromVideo_sampling_spec_witness :
    (createGifFromVideo 5 1280 720).frames.length = 50 ∧
    (createGifFromVideo 5 1280 720).blob.type = "image/gif" := by
  have h := createGifFromVideo_sampling_spec 5 1280 720 (by norm_num)
  refine ⟨?_, h.2.2.2.2⟩
  rw [h.1, show ((5 : ℚ) * 10) = 50 from by norm_num]
  simp

/-- Claim C10: an operation already done at entry is returned
immediately and unchanged by the poller, with zero status-check calls
and zero elapsed delay, whatever error or result fields it carries
and whatever the trace holds. -/
theorem pollForVideo_done_at_entry_immediate :
    ∀ (resps : List PollResponse) (op : Operation), op.done = true →
      pollForVideo resps op = ⟨PollOutcome.success op, 0, 0⟩ := by
  intro resps op h
  exact pollGo_done resps op 0 0 h

/-- Witness for C10: a done operation carrying an error message and an
empty URI is returned untouched, with no calls and no delay. -/
theorem pollForVideo_done_at_entry_immediate_witness :
    pollForVideo [PollResponse.err "503"]
      ⟨true, some "internal failure", some ""⟩ =
      ⟨PollOutcome.success ⟨true, some "internal failure", some ""⟩, 0, 0⟩ :=
  pollForVideo_done_at_entry_immediate [PollResponse.err "503"]
    ⟨true, some "internal failure", some ""⟩ rfl

end MotionCraft
